import Mathlib

/-!
Verification of the `gmw` / `jmw` WildFly deployment helper.

This file shallowly embeds the parts of the repository that the checked
properties are about:

* `internal/deployer` (Go, `src/cmd/root.go`): the restart classifier
  (`determineRestartRequirement`, `fallbackRestartCheck`,
  `checkSourceFilesAgainstPatterns`), the deployment driver (`Deploy`,
  `deployDomain`, `deployStandalone`, `deployGlobalModule`), the remote
  deployment guide (`showRemoteGuide`) and the confirmation prompt
  (`confirm`).
* `src/config.js` / the unnamed JS config module: `loadConfig` and
  `expandPaths` over a generic YAML-like value tree.

Effectful code is modelled by explicit inputs and outputs: file existence,
the user's answer on stdin and subprocess exit statuses are parameters;
filesystem mutations and subprocess invocations are returned as a trace of
`Action`s; terminal output is returned as a list of printed lines.

Go's `regexp` package (RE2) is modelled by a small executable regex engine
(`regexCompile` / `regexMatches` / `matchString`) over the fragment the
configuration patterns use: literal characters, escapes, `.`, `*`, `+`,
`?`, `|` and grouping.  A pattern the parser rejects models an invalid
regular expression (`regexp.MatchString` returning an error).
-/

namespace GMW

/-! ### Character-list string primitives

The Go and JS string predicates (`strings.HasSuffix`, `strings.Contains`,
`String.prototype.startsWith`, ...) are modelled on `String.data` so that
every definition evaluates inside the kernel. -/

/-- `startsWithL pre s` is true iff the char list `pre` is a prefix of `s`. -/
def startsWithL : List Char → List Char → Bool
  | [], _ => true
  | _ :: _, [] => false
  | c :: p, d :: s => c == d && startsWithL p s

/-- `containsL pat s` is true iff `pat` occurs as a contiguous sublist of `s`. -/
def containsL (pat : List Char) : List Char → Bool
  | [] => startsWithL pat []
  | c :: s => startsWithL pat (c :: s) || containsL pat s

/-- Models JS `value.startsWith(pre)` / Go `strings.HasPrefix`. -/
def strStartsWith (s pre : String) : Bool :=
  startsWithL pre.data s.data

/-- Models Go `strings.HasSuffix(s, suffix)`. -/
def strEndsWith (s suffix : String) : Bool :=
  startsWithL suffix.data.reverse s.data.reverse

/-- Models Go `strings.Contains(s, sub)`. -/
def containsSub (s sub : String) : Bool :=
  containsL sub.data s.data

/-- Drops the first character; used for the JS `value.replace('~', home)`
on a string known to start with `~`. -/
def strDrop1 (s : String) : String :=
  String.mk (s.data.drop 1)

/-- Models Go `strings.ToLower` on the ASCII range the tool's prompts use. -/
def strToLower (s : String) : String :=
  String.mk (s.data.map Char.toLower)

/-- Whitespace recognised by the model of Go `strings.TrimSpace`. -/
def isSpaceChar (c : Char) : Bool :=
  c == ' ' || c == '\t' || c == '\n' || c == '\r'

/-- Models Go `strings.TrimSpace` (ASCII whitespace fragment). -/
def strTrim (s : String) : String :=
  String.mk (((s.data.dropWhile isSpaceChar).reverse.dropWhile isSpaceChar).reverse)

/-- Models Go `filepath.Join(a, b)` on the clean, slash-free-boundary paths
the configuration uses. -/
def fpJoin (a b : String) : String :=
  a ++ "/" ++ b

/-- Models Go `filepath.Base` on the ordinary slash-separated paths the
tool receives: the part after the last `/`. -/
def baseName (p : String) : String :=
  String.mk ((p.data.reverse.takeWhile (fun c => !(c == '/'))).reverse)

/-! ### A small regex engine modelling Go `regexp` (RE2 fragment) -/

/-- Regular expressions over the fragment used by restart patterns. -/
inductive Regex where
  | fail
  | eps
  | chr (c : Char)
  | dot
  | cat (r1 r2 : Regex)
  | alt (r1 r2 : Regex)
  | star (r : Regex)
deriving DecidableEq

/-- Does the regex accept the empty string? -/
def rnullable : Regex → Bool
  | .fail => false
  | .eps => true
  | .chr _ => false
  | .dot => false
  | .cat a b => rnullable a && rnullable b
  | .alt a b => rnullable a || rnullable b
  | .star _ => true

/-- Brzozowski derivative of a regex by a character. -/
def rderiv (c : Char) : Regex → Regex
  | .fail => .fail
  | .eps => .fail
  | .chr d => if c == d then .eps else .fail
  | .dot => .eps
  | .cat a b =>
    if rnullable a then .alt (.cat (rderiv c a) b) (rderiv c b)
    else .cat (rderiv c a) b
  | .alt a b => .alt (rderiv c a) (rderiv c b)
  | .star r => .cat (rderiv c r) (.star r)

/-- Whole-string acceptance via iterated derivatives. -/
def rmatchFull (r : Regex) (s : List Char) : Bool :=
  rnullable (s.foldl (fun acc c => rderiv c acc) r)

/-- Unanchored matching, as Go `Regexp.MatchString`: some substring of `s`
matches `r`, i.e. `.*r.*` matches all of `s`. -/
def regexMatches (r : Regex) (s : String) : Bool :=
  rmatchFull (.cat (.star .dot) (.cat r (.star .dot))) s.data

/-- Characters that cannot begin a plain literal atom in the modelled
fragment.  `[`, `]`, `{`, `}`, `^`, `$` are outside the fragment and make
the parser fail. -/
def atomStopChar (c : Char) : Bool :=
  c == ')' || c == '|' || c == '*' || c == '+' || c == '?' || c == '\\' ||
  c == '[' || c == ']' || c == '{' || c == '}' || c == '^' || c == '$'

mutual

/-- Parse an alternation (`a|b|c`). -/
def parseAlt : Nat → List Char → Option (Regex × List Char)
  | 0, _ => none
  | fuel + 1, cs =>
    match parseCat fuel cs with
    | none => none
    | some (r, rest) =>
      match rest with
      | '|' :: rest2 =>
        match parseAlt fuel rest2 with
        | some (r2, rest3) => some (.alt r r2, rest3)
        | none => none
      | _ => some (r, rest)

/-- Parse a concatenation of repeated atoms; the empty concatenation is `ε`. -/
def parseCat : Nat → List Char → Option (Regex × List Char)
  | 0, _ => none
  | fuel + 1, cs =>
    match parseRep fuel cs with
    | none => some (.eps, cs)
    | some (r, rest) =>
      match parseCat fuel rest with
      | some (r2, rest2) => some (.cat r r2, rest2)
      | none => none

/-- Parse an atom with an optional postfix `*`, `+` or `?`. -/
def parseRep : Nat → List Char → Option (Regex × List Char)
  | 0, _ => none
  | fuel + 1, cs =>
    match parseAtom fuel cs with
    | none => none
    | some (r, rest) =>
      match rest with
      | '*' :: rest2 => some (.star r, rest2)
      | '+' :: rest2 => some (.cat r (.star r), rest2)
      | '?' :: rest2 => some (.alt r .eps, rest2)
      | _ => some (r, rest)

/-- Parse a single atom: a group, an escaped character, `.`, or a literal. -/
def parseAtom : Nat → List Char → Option (Regex × List Char)
  | 0, _ => none
  | fuel + 1, cs =>
    match cs with
    | [] => none
    | '(' :: rest =>
      match parseAlt fuel rest with
      | some (r, ')' :: rest2) => some (r, rest2)
      | _ => none
    | '\\' :: c :: rest => some (.chr c, rest)
    | '.' :: rest => some (.dot, rest)
    | c :: rest =>
      if atomStopChar c then none else some (.chr c, rest)

end

/-- Models `regexp.Compile`: `none` is a compilation error (invalid pattern,
or a pattern outside the modelled fragment). -/
def regexCompile (pat : String) : Option Regex :=
  match parseAlt (4 * pat.length + 8) pat.data with
  | some (r, []) => some r
  | _ => none

/-- Models `regexp.MatchString(pat, s)`: `none` is the error result for an
invalid pattern, `some b` reports whether the pattern matches. -/
def matchString (pat s : String) : Option Bool :=
  match regexCompile pat with
  | none => none
  | some r => some (regexMatches r s)

/-! ### Configuration data model (`internal/config`, as used by the deployer) -/

/-- One restart-classification rule (`config.RestartPattern`): a regex to
match, a severity (`"required"` or `"recommended"`) and a reason. -/
structure RestartPattern where
  Match : String
  Severity : String
  Reason : String
deriving DecidableEq

/-- Restart rules (`config.RestartRules`): the global-module override flag
and the ordered list of patterns. -/
structure RestartRules where
  GlobalModule : Bool
  Patterns : List RestartPattern
deriving DecidableEq

/-- The part of `config.Config` the deployer reads: the optional restart
rules (`nil` in Go is `none`). -/
structure Config where
  RestartRules : Option RestartRules
deriving DecidableEq

/-- Remote host settings (`Config.Remote` as read by `showRemoteGuide`). -/
structure Remote where
  Host : String
  User : String
  WildFlyPath : String
  RestartCmd : String
deriving DecidableEq

/-- The per-project configuration the deployer reads from
`projectInfo.Config`: WildFly root, mode, server group and the optional
remote host. -/
structure ProjectConfig where
  WildFlyRoot : String
  WildFlyMode : String
  ServerGroup : String
  Remote : Option Remote
deriving DecidableEq

/-- The detector output the deployer reads (`detector.ProjectInfo`).  The
filesystem walk of `checkSourceFilesAgainstPatterns` is modelled by
`ModuleFiles`: the list of relative paths (files, directories and the root
`"."`) that `filepath.WalkDir` yields under `ModulePath`. -/
structure ProjectInfo where
  Name : String
  ModuleName : String
  IsGlobalModule : Bool
  DeploymentPath : String
  Config : ProjectConfig
  ModuleFiles : List String
deriving DecidableEq

/-! ### Restart classifier (`determineRestartRequirement` and helpers) -/

/-- The guard `d.cfg.RestartRules != nil && d.cfg.RestartRules.GlobalModule`. -/
def globalOverride (cfg : Config) : Bool :=
  match cfg.RestartRules with
  | none => false
  | some rr => rr.GlobalModule

/-- `fallbackRestartCheck`: heuristics used when no restart rules are
configured. -/
def fallbackRestartCheck (isGlobal : Bool) (artifactName : String) : String × String :=
  if isGlobal then ("required", "Global module modification")
  else if strEndsWith artifactName ".jar" && containsSub artifactName "EJB" then
    ("recommended", "EJB implementation JAR")
  else if strEndsWith artifactName ".war" then ("none", "WAR hot-deployment")
  else ("recommended", "Standard deployment (restart to ensure changes are loaded)")

/-- The artifact-name loop of `determineRestartRequirement`: the first
pattern whose regex is valid and matches the artifact name; patterns with
invalid regexes are skipped. -/
def firstArtifactMatch (pats : List RestartPattern) (artifactName : String) :
    Option RestartPattern :=
  match pats with
  | [] => none
  | p :: rest =>
    match matchString p.Match artifactName with
    | none => firstArtifactMatch rest artifactName
    | some true => some p
    | some false => firstArtifactMatch rest artifactName

/-- One pattern of the source-file walk: the pattern compiles and some
walked path under the module root matches it. -/
def patternMatchesSomeFile (p : RestartPattern) (files : List String) : Bool :=
  match regexCompile p.Match with
  | none => false
  | some r => files.any (fun f => regexMatches r f)

/-- `checkSourceFilesAgainstPatterns`: the configured patterns (in order)
whose regex is valid and matches some path in the module directory. -/
def checkSourceFilesAgainstPatterns (cfg : Config) (files : List String) :
    List RestartPattern :=
  match cfg.RestartRules with
  | none => []
  | some rr =>
    if rr.Patterns.isEmpty then []
    else rr.Patterns.filter (fun p => patternMatchesSomeFile p files)

/-- `determineRestartRequirement`: severity and reason of the restart
classification for a deployed artifact. -/
def determineRestartRequirement (cfg : Config) (files : List String)
    (isGlobal : Bool) (artifactName : String) : String × String :=
  if isGlobal && globalOverride cfg then ("required", "Global module modification")
  else
    match cfg.RestartRules with
    | none => fallbackRestartCheck isGlobal artifactName
    | some rr =>
      if rr.Patterns.isEmpty then fallbackRestartCheck isGlobal artifactName
      else
        match firstArtifactMatch rr.Patterns artifactName with
        | some p => (p.Severity, p.Reason)
        | none =>
          match checkSourceFilesAgainstPatterns cfg files with
          | [] =>
            if strEndsWith artifactName ".war" then ("none", "WAR hot-deployment")
            else ("recommended", "Standard deployment (restart to ensure changes are loaded)")
          | m :: rest =>
            (if (m :: rest).any (fun x => x.Severity == "required") then "required"
             else "recommended",
             "Source code changes: " ++ m.Reason)

/-! ### Confirmation prompt (`confirm`) -/

/-- `confirm`: reads one line from stdin (`none` models a read error) and
accepts iff the lowercased, trimmed line is empty, `y` or `yes`. -/
def confirm (readLine : Option String) : Bool :=
  match readLine with
  | none => false
  | some response =>
    let r := strTrim (strToLower response)
    r == "" || r == "y" || r == "yes"

/-! ### Deployment driver (`Deploy` and helpers)

Filesystem mutations and subprocess invocations are collected as a trace;
each helper returns `(trace, error)` where `none` is a nil Go error.
Terminal printing performs no mutation and is not traced. -/

/-- A side effect the deployer performs. -/
inductive Action where
  | mkdirAll (path : String)
  | copyFile (src dst : String)
  | writeFile (path : String)
  | exec (cmd : String)
deriving DecidableEq

/-- Modelled from the spec: `detector.ProjectInfo.GetGlobalModulePath` is
not under `src/`; per the spec (and the JS variant) the deployment path
already contains the full path from the WildFly root (e.g.
`modules/ejbmto/main`), so the global-module target directory is the
WildFly root joined with the deployment path. -/
def GetGlobalModulePath (info : ProjectInfo) : String :=
  fpJoin info.Config.WildFlyRoot info.DeploymentPath

/-- `deployGlobalModule`: ensure the module directory exists and copy the
artifact into it. -/
def deployGlobalModule (info : ProjectInfo) (artifactPath : String) :
    List Action × Option String :=
  let targetDir := GetGlobalModulePath info
  let targetPath := fpJoin targetDir (baseName artifactPath)
  ([Action.mkdirAll targetDir, Action.copyFile artifactPath targetPath], none)

/-- `deployStandalone`: copy the artifact into `standalone/deployments` and
write the `.dodeploy` marker (the subsequent `.deployed`/`.failed` polling
only reads and prints). -/
def deployStandalone (wildflyRoot artifactPath : String) :
    List Action × Option String :=
  let deployDir := fpJoin (fpJoin wildflyRoot "standalone") "deployments"
  let targetPath := fpJoin deployDir (baseName artifactPath)
  ([Action.copyFile artifactPath targetPath,
    Action.writeFile (targetPath ++ ".dodeploy")], none)

/-- `deployDomain`: run `jboss-cli.sh` undeploy (its failure only prints a
note and is otherwise ignored), then run deploy; the result is an error
exactly when the deploy subprocess fails.  `undeployOk` / `deployOk` are
the subprocess exit statuses. -/
def deployDomain (wildflyRoot serverGroup artifactPath : String)
    (undeployOk deployOk : Bool) : List Action × Option String :=
  let jbossCli := fpJoin (fpJoin wildflyRoot "bin") "jboss-cli.sh"
  let artifactName := baseName artifactPath
  ([Action.exec (jbossCli ++ " --connect controller=localhost undeploy " ++
      artifactName ++ " --server-groups=" ++ serverGroup),
    Action.exec (jbossCli ++ " --connect controller=localhost deploy " ++
      artifactPath ++ " --server-groups=" ++ serverGroup)],
   if deployOk then none else some "deployment failed")

/-- `Deploy`: check the artifact exists, show the plan (print only), ask
for confirmation, and on consent execute the matching deployment helper.
`artifactExists` models the `os.Stat` check and `userInput` the line read
by `confirm`.  The post-deployment restart check and remote guide only
print. -/
def Deploy (info : ProjectInfo) (artifactExists : Bool)
    (userInput : Option String) (artifactPath : String)
    (undeployOk deployOk : Bool) : List Action × Option String :=
  if artifactExists = false then ([], some ("artifact not found: " ++ artifactPath))
  else if confirm userInput = false then ([], none)
  else if info.IsGlobalModule then deployGlobalModule info artifactPath
  else if info.Config.WildFlyMode == "domain" then
    deployDomain info.Config.WildFlyRoot info.Config.ServerGroup artifactPath
      undeployOk deployOk
  else deployStandalone info.Config.WildFlyRoot artifactPath

/-- The process exit code: `runDeploy` propagates a deployment error and
`Execute` exits 1 on error, 0 otherwise. -/
def deployExitCode (res : List Action × Option String) : Nat :=
  match res.2 with
  | none => 0
  | some _ => 1

/-! ### Remote deployment guide (`showRemoteGuide`)

The guide is pure terminal output; it is modelled as the list of printed
lines and executes nothing. -/

/-- An `ssh` command line as printed by the guide
(`"   ssh %s@%s \"%s\"\n"`). -/
def sshLine (user host cmd : String) : String :=
  "   ssh " ++ user ++ "@" ++ host ++ " \"" ++ cmd ++ "\""

/-- An `scp` command line as printed by the guide
(`"   scp %s %s@%s:%s\n"`). -/
def scpLine (artifactPath user host target : String) : String :=
  "   scp " ++ artifactPath ++ " " ++ user ++ "@" ++ host ++ ":" ++ target

/-- The horizontal rule printed under the guide header. -/
def guideRule : String :=
  String.mk (List.replicate 50 '━')

/-- The remote standalone deployments directory. -/
def remoteDeployPath (r : Remote) : String :=
  fpJoin (fpJoin r.WildFlyPath "standalone") "deployments"

/-- The remote `jboss-cli.sh` path. -/
def remoteJbossCli (r : Remote) : String :=
  fpJoin (fpJoin r.WildFlyPath "bin") "jboss-cli.sh"

/-- The remote server log path (domain vs standalone layout). -/
def remoteLogPath (pc : ProjectConfig) (r : Remote) : String :=
  if pc.WildFlyMode == "domain" then
    fpJoin (fpJoin (fpJoin r.WildFlyPath "domain") "log") "server.log"
  else fpJoin (fpJoin (fpJoin r.WildFlyPath "standalone") "log") "server.log"

/-- The command inside the guide's hot-deployment trigger `ssh`. -/
def touchCmdOf (r : Remote) (artifactName : String) : String :=
  "touch " ++ remoteDeployPath r ++ "/" ++ artifactName ++ ".dodeploy"

/-- The command inside the guide's domain-mode undeploy `ssh`. -/
def undeployCmdOf (r : Remote) (serverGroup artifactName : String) : String :=
  remoteJbossCli r ++ " --connect controller=localhost \x27undeploy " ++
    artifactName ++ " --server-groups=" ++ serverGroup ++ "\x27"

/-- The command inside the guide's domain-mode deploy `ssh`. -/
def deployCmdOf (r : Remote) (serverGroup artifactName : String) : String :=
  remoteJbossCli r ++ " --connect controller=localhost \x27deploy /tmp/" ++
    artifactName ++ " --server-groups=" ++ serverGroup ++ "\x27"

/-- The command inside the guide's log-watching `ssh`. -/
def tailCmdOf (pc : ProjectConfig) (r : Remote) : String :=
  "tail -f " ++ remoteLogPath pc r

/-- `showRemoteGuide`: the printed lines of the remote deployment guide;
empty when no remote host is configured. -/
def showRemoteGuide (pc : ProjectConfig) (deploymentPath artifactPath artifactName : String)
    (isGlobal : Bool) : List String :=
  match pc.Remote with
  | none => []
  | some r =>
    ["", "📝 REMOTE DEPLOYMENT GUIDE", guideRule,
     "Host: " ++ r.User ++ "@" ++ r.Host, ""]
    ++
    (if isGlobal then
      ["1. Copy artifact:",
       scpLine artifactPath r.User r.Host (fpJoin r.WildFlyPath deploymentPath)]
    else if pc.WildFlyMode == "standalone" then
      ["1. Copy artifact:",
       scpLine artifactPath r.User r.Host (remoteDeployPath r),
       "", "2. Trigger deployment:",
       sshLine r.User r.Host (touchCmdOf r artifactName)]
    else
      ["1. Copy artifact to remote server:",
       scpLine artifactPath r.User r.Host "/tmp/",
       "", "2. Deploy via jboss-cli:",
       sshLine r.User r.Host (undeployCmdOf r pc.ServerGroup artifactName),
       sshLine r.User r.Host (deployCmdOf r pc.ServerGroup artifactName)])
    ++
    ["", "2. Restart WildFly:",
     sshLine r.User r.Host r.RestartCmd,
     "", "3. Verify deployment:",
     sshLine r.User r.Host (tailCmdOf pc r)]

/-- A printed line that is an `scp` command. -/
def isScpLine (l : String) : Bool :=
  startsWithL "   scp ".data l.data

/-! ### Configuration loading (`src/config.js`: `loadConfig`, `expandPaths`)

A parsed YAML document is a tree of mappings, sequences, strings and other
scalars. -/

/-- A YAML/JS value as produced by `yaml.load`. -/
inductive JValue where
  | str (s : String)
  | num (n : Int)
  | boolean (b : Bool)
  | null
  | arr (elems : List JValue)
  | obj (entries : List (String × JValue))

mutual

/-- `expandPaths(obj)`: primitives are returned unchanged, arrays are
mapped recursively, and for mappings each entry value is rewritten by
`expandEntry`. -/
def expandPaths (home : String) : JValue → JValue
  | .str s => .str s
  | .num n => .num n
  | .boolean b => .boolean b
  | .null => .null
  | .arr xs => .arr (expandList home xs)
  | .obj kvs => .obj (expandEntries home kvs)

/-- `obj.map(expandPaths)` over the elements of a sequence. -/
def expandList (home : String) : List JValue → List JValue
  | [] => []
  | v :: vs => expandPaths home v :: expandList home vs

/-- The `Object.entries` loop of `expandPaths` over a mapping. -/
def expandEntries (home : String) : List (String × JValue) → List (String × JValue)
  | [] => []
  | (k, v) :: kvs => (k, expandEntry home v) :: expandEntries home kvs

/-- One mapping value: a string starting with `~` has the `~` replaced by
the home directory (`value.replace('~', os.homedir())`), other strings
and non-object scalars are unchanged, and nested objects recurse. -/
def expandEntry (home : String) : JValue → JValue
  | .str s => if strStartsWith s "~" then .str (home ++ strDrop1 s) else .str s
  | .num n => .num n
  | .boolean b => .boolean b
  | .null => .null
  | .arr xs => .arr (expandList home xs)
  | .obj kvs => .obj (expandEntries home kvs)

end

/-- `loadConfig`: the user config file if it exists, else a local
`config.yaml` if it exists, else the embedded default; the chosen document
is passed through `expandPaths`.  `userConfig` / `localConfig` are `some`
exactly when the corresponding file exists (and parses; a YAML parse error
raises out of `loadConfig` and is outside this model). -/
def loadConfig (home : String) (userConfig localConfig : Option JValue)
    (embedded : JValue) : JValue :=
  match userConfig with
  | some doc => expandPaths home doc
  | none =>
    match localConfig with
    | some doc => expandPaths home doc
    | none => expandPaths home embedded

/-- Follows the spec's words, for comparison with `loadConfig`: the source
chosen by the documented priority order (user path, then local
`config.yaml`, then the embedded default). -/
def specConfigSource (userConfig localConfig : Option JValue)
    (embedded : JValue) : JValue :=
  match userConfig with
  | some doc => doc
  | none =>
    match localConfig with
    | some doc => doc
    | none => embedded

/-! ### Paths into a value tree

Used to state which strings `expandPaths` rewrites: a step either enters
the `i`-th entry of a mapping or the `i`-th element of a sequence. -/

/-- One navigation step into a `JValue`. -/
inductive Step where
  | fld (i : Nat)
  | idx (i : Nat)
deriving DecidableEq

/-- Follow a path of steps into a value. -/
def getPath : JValue → List Step → Option JValue
  | v, [] => some v
  | .obj kvs, .fld i :: rest =>
    match kvs.get? i with
    | some kv => getPath kv.2 rest
    | none => none
  | .arr xs, .idx i :: rest =>
    match xs.get? i with
    | some v => getPath v rest
    | none => none
  | _, _ => none

/-- Does the path end by entering a mapping entry (rather than a sequence
element, or being empty)? -/
def endsWithFld : List Step → Bool
  | [] => false
  | [.fld _] => true
  | [.idx _] => false
  | _ :: s :: rest => endsWithFld (s :: rest)

/-! ## General lemmas about the string primitives -/

theorem strExt {a b : String} (h : a.data = b.data) : a = b := by
  cases a; cases b; exact congrArg String.mk h

theorem startsWithL_self_append (p t : List Char) : startsWithL p (p ++ t) = true := by
  induction p with
  | nil => rfl
  | cons c p ih => simp [startsWithL, ih]

theorem containsL_nil_left (l : List Char) : containsL [] l = true := by
  cases l <;> simp [containsL, startsWithL]

theorem containsL_self_append (m t : List Char) : containsL m (m ++ t) = true := by
  cases m with
  | nil => simpa using containsL_nil_left t
  | cons c m => simp [containsL, startsWithL, startsWithL_self_append]

theorem containsL_append_of_right (m p l : List Char) (h : containsL m l = true) :
    containsL m (p ++ l) = true := by
  induction p with
  | nil => simpa using h
  | cons c p ih => simp [containsL, ih]

theorem str_ne_at (i : Nat) (a b : String) (x y : Option Char)
    (hx : a.data.get? i = x) (hy : b.data.get? i = y) (hxy : x ≠ y) : a ≠ b :=
  fun e => hxy (hx ▸ hy ▸ congrArg (fun s => s.data.get? i) e)

theorem str_beq_false_at (i : Nat) (a b : String) (x y : Option Char)
    (hx : a.data.get? i = x) (hy : b.data.get? i = y) (hxy : x ≠ y) :
    (a == b) = false :=
  beq_eq_false_iff_ne.mpr (str_ne_at i a b x y hx hy hxy)

/-! ## Claim theorems -/

theorem sshLine_inj {u h a b : String} (e : sshLine u h a = sshLine u h b) :
    a = b := by
  have e2 := congrArg String.data e
  simp only [sshLine, String.data_append, List.append_assoc] at e2
  have e3 := List.append_cancel_left e2
  have e4 := List.append_cancel_left e3
  have e5 := List.append_cancel_left e4
  have e6 := List.append_cancel_left e5
  have e7 := List.append_cancel_left e6
  exact strExt (List.append_cancel_right e7)

theorem sshLine_beq_false {u h a b : String} (hne : a ≠ b) :
    (sshLine u h a == sshLine u h b) = false :=
  beq_eq_false_iff_ne.mpr (fun e => hne (sshLine_inj e))

theorem touchCmd_ne_tailCmd (r : Remote) (n : String) (pc : ProjectConfig) :
    touchCmdOf r n ≠ tailCmdOf pc r :=
  str_ne_at 1 _ _ (some 'o') (some 'a') rfl
    (by unfold tailCmdOf remoteLogPath; cases pc.WildFlyMode == "domain" <;> rfl)
    (by decide)

theorem containsSub_parts (p m t : String) : containsSub (p ++ (m ++ t)) m = true := by
  unfold containsSub
  rw [String.data_append, String.data_append]
  exact containsL_append_of_right _ _ _ (containsL_self_append _ _)

theorem sshLine_contains_userhost (u h c : String) :
    containsSub (sshLine u h c) (u ++ "@" ++ h) = true := by
  have e : sshLine u h c = "   ssh " ++ ((u ++ "@" ++ h) ++ (" \"" ++ (c ++ "\""))) := by
    simp [sshLine, String.append_assoc]
  rw [e]
  exact containsSub_parts _ _ _

theorem scpLine_contains_userhost (a u h t : String) :
    containsSub (scpLine a u h t) (u ++ "@" ++ h) = true := by
  have e : scpLine a u h t
      = ("   scp " ++ (a ++ " ")) ++ ((u ++ "@" ++ h) ++ (":" ++ t)) := by
    simp [scpLine, String.append_assoc]
  rw [e]
  exact containsSub_parts _ _ _

theorem sshLine_tail_contains_path (u h : String) (pc : ProjectConfig) (r : Remote) :
    containsSub (sshLine u h (tailCmdOf pc r)) r.WildFlyPath = true := by
  unfold containsSub sshLine tailCmdOf remoteLogPath fpJoin
  cases pc.WildFlyMode == "domain" with
  | false =>
    simp only [Bool.false_eq_true, if_false, ite_false, String.data_append,
      List.append_assoc]
    repeat
      first
      | exact containsL_self_append _ _
      | apply containsL_append_of_right
  | true =>
    simp only [String.data_append, List.append_assoc, ite_true, if_true,
      eq_self_iff_true]
    repeat
      first
      | exact containsL_self_append _ _
      | apply containsL_append_of_right

theorem scpLine_contains_target_head (a u h : String) (w t : String) :
    containsSub (scpLine a u h (w ++ t)) w = true := by
  unfold containsSub scpLine
  simp only [String.data_append, List.append_assoc]
  repeat
    first
    | exact containsL_self_append _ _
    | apply containsL_append_of_right

theorem isScpLine_sshLine (u h c : String) : isScpLine (sshLine u h c) = false := rfl

theorem isScpLine_scpLine (a u h t : String) : isScpLine (scpLine a u h t) = true := rfl

theorem isScpLine_hostLine (x y : String) :
    isScpLine ("Host: " ++ x ++ "@" ++ y) = false := rfl

theorem isScpLine_lits :
    isScpLine "" = false
    ∧ isScpLine "📝 REMOTE DEPLOYMENT GUIDE" = false
    ∧ isScpLine guideRule = false
    ∧ isScpLine "1. Copy artifact:" = false
    ∧ isScpLine "2. Trigger deployment:" = false
    ∧ isScpLine "2. Restart WildFly:" = false
    ∧ isScpLine "3. Verify deployment:" = false
    ∧ isScpLine "1. Copy artifact to remote server:" = false
    ∧ isScpLine "2. Deploy via jboss-cli:" = false :=
  ⟨rfl, rfl, rfl, rfl, rfl, rfl, rfl, rfl, rfl⟩

theorem header_beq_sshLine (u h c : String) :
    ("" == sshLine u h c) = false
    ∧ ("📝 REMOTE DEPLOYMENT GUIDE" == sshLine u h c) = false
    ∧ (guideRule == sshLine u h c) = false
    ∧ (∀ x y, ("Host: " ++ x ++ "@" ++ y == sshLine u h c) = false)
    ∧ ("1. Copy artifact:" == sshLine u h c) = false
    ∧ ("2. Trigger deployment:" == sshLine u h c) = false
    ∧ ("2. Restart WildFly:" == sshLine u h c) = false
    ∧ ("3. Verify deployment:" == sshLine u h c) = false
    ∧ ("1. Copy artifact to remote server:" == sshLine u h c) = false
    ∧ ("2. Deploy via jboss-cli:" == sshLine u h c) = false
    ∧ (∀ a v w t, (scpLine a v w t == sshLine u h c) = false) :=
  ⟨str_beq_false_at 0 _ _ none (some ' ') rfl rfl (by decide),
   str_beq_false_at 0 _ _ (some '📝') (some ' ') rfl rfl (by decide),
   str_beq_false_at 0 _ _ (some '━') (some ' ') rfl rfl (by decide),
   fun x y => str_beq_false_at 0 _ _ (some 'H') (some ' ') rfl rfl (by decide),
   str_beq_false_at 0 _ _ (some '1') (some ' ') rfl rfl (by decide),
   str_beq_false_at 0 _ _ (some '2') (some ' ') rfl rfl (by decide),
   str_beq_false_at 0 _ _ (some '2') (some ' ') rfl rfl (by decide),
   str_beq_false_at 0 _ _ (some '3') (some ' ') rfl rfl (by decide),
   str_beq_false_at 0 _ _ (some '1') (some ' ') rfl rfl (by decide),
   str_beq_false_at 0 _ _ (some '2') (some ' ') rfl rfl (by decide),
   fun a v w t => str_beq_false_at 4 _ _ (some 'c') (some 's') rfl rfl (by decide)⟩

/-- Follows the spec's words (amended): the target of the guide's single
`scp` command — the module directory for a global module, the standalone
deployments directory in standalone mode, and `/tmp/` in domain mode. -/
def guideScpTarget (pc : ProjectConfig) (r : Remote) (deploymentPath : String)
    (isGlobal : Bool) : String :=
  if isGlobal then fpJoin r.WildFlyPath deploymentPath
  else if pc.WildFlyMode == "standalone" then remoteDeployPath r
  else "/tmp/"

/-- The configured patterns of a configuration (empty when no restart
rules are configured). -/
def configPatterns (cfg : Config) : List RestartPattern :=
  match cfg.RestartRules with
  | none => []
  | some rr => rr.Patterns

theorem firstArtifactMatch_eq_none (l : List RestartPattern) (name : String)
    (h : ∀ p ∈ l, matchString p.Match name ≠ some true) :
    firstArtifactMatch l name = none := by
  induction l with
  | nil => rfl
  | cons q l ih =>
    have hq := h q (by simp)
    have hrest : firstArtifactMatch l name = none :=
      ih (fun p hp => h p (by simp [hp]))
    cases hm : matchString q.Match name with
    | none => simpa [firstArtifactMatch, hm] using hrest
    | some b =>
      cases b with
      | false => simpa [firstArtifactMatch, hm] using hrest
      | true => exact absurd hm hq

theorem firstArtifactMatch_append_invalid (l1 l2 : List RestartPattern)
    (p : RestartPattern) (name : String) (h : matchString p.Match name = none) :
    firstArtifactMatch (l1 ++ p :: l2) name = firstArtifactMatch (l1 ++ l2) name := by
  induction l1 with
  | nil => simp [firstArtifactMatch, h]
  | cons q l ih =>
    simp only [List.cons_append, firstArtifactMatch]
    cases matchString q.Match name with
    | none => exact ih
    | some b => cases b <;> simp [ih]

theorem war_not_jar (name : String) (h : strEndsWith name ".war" = true) :
    strEndsWith name ".jar" = false := by
  unfold strEndsWith at h ⊢
  rw [show (".war".data.reverse) = ['r', 'a', 'w', '.'] from by decide] at h
  rw [show (".jar".data.reverse) = ['r', 'a', 'j', '.'] from by decide]
  cases l : name.data.reverse with
  | nil => rw [l] at h; simp [startsWithL] at h
  | cons c1 t1 =>
    rw [l] at h
    cases t1 with
    | nil => simp [startsWithL] at h
    | cons c2 t2 =>
      cases t2 with
      | nil => simp [startsWithL] at h
      | cons c3 t3 =>
        simp only [startsWithL, Bool.and_eq_true, beq_iff_eq] at h
        obtain ⟨h1, h2, h3, -⟩ := h
        subst h1; subst h2; subst h3
        simp [startsWithL, show (('j' : Char) == 'w') = false from by decide]

/-- C1 (amended): with restart rules configured, a non-global artifact is
classified by the first pattern (in configuration order) whose regex is
valid and matches the artifact name; that pattern's severity and reason
are returned, so a `required` pattern prevails only when no
earlier-listed pattern matches. -/
theorem restart_classification_first_match :
    ∀ (cfg : Config) (rr : RestartRules) (files : List String) (name : String)
      (p : RestartPattern),
    cfg.RestartRules = some rr →
    firstArtifactMatch rr.Patterns name = some p →
    determineRestartRequirement cfg files false name = (p.Severity, p.Reason) := by
  intro cfg rr files name p hc hf
  have hne : rr.Patterns.isEmpty = false := by
    cases hl : rr.Patterns with
    | nil => rw [hl] at hf; exact absurd hf (by simp [firstArtifactMatch])
    | cons a l => rfl
  simp [determineRestartRequirement, hc, hne, hf]

/-- Configuration refuting C1 as stated: a `recommended` pattern listed
before a `required` pattern, both matching. -/
def cfgC1 : Config :=
  ⟨some ⟨false, [⟨"foo", "recommended", "r1"⟩, ⟨"foo", "required", "r2"⟩]⟩⟩

/-- C1 (counterexample): the artifact `foo` matches the configured
`required` pattern, yet classification returns the earlier `recommended`
match, not `required`. -/
theorem firstMatch_overrides_required_cex :
    cfgC1.RestartRules =
      some ⟨false, [⟨"foo", "recommended", "r1"⟩, ⟨"foo", "required", "r2"⟩]⟩
    ∧ matchString "foo" "foo" = some true
    ∧ determineRestartRequirement cfgC1 [] false "foo" = ("recommended", "r1")
    ∧ ("recommended" : String) ≠ "required" := by decide

/-- Witness for the amended C1 at the counterexample configuration. -/
theorem restart_classification_first_match_witness :
    (cfgC1.RestartRules =
        some ⟨false, [⟨"foo", "recommended", "r1"⟩, ⟨"foo", "required", "r2"⟩]⟩
     ∧ firstArtifactMatch [⟨"foo", "recommended", "r1"⟩, ⟨"foo", "required", "r2"⟩]
         "foo" = some ⟨"foo", "recommended", "r1"⟩)
    ∧ determineRestartRequirement cfgC1 [] false "foo" = ("recommended", "r1") :=
  ⟨⟨rfl, by decide⟩,
   restart_classification_first_match cfgC1
     ⟨false, [⟨"foo", "recommended", "r1"⟩, ⟨"foo", "required", "r2"⟩]⟩
     [] "foo" ⟨"foo", "recommended", "r1"⟩ rfl (by decide)⟩

/-- C4: a global-module deployment classifies as `required` with the
reason `Global module modification`, both when the global-module override
rule is set (regardless of the patterns and the artifact name) and when no
restart rules are configured at all. -/
theorem global_module_required :
    ∀ (cfg : Config) (files : List String) (name : String),
    (globalOverride cfg = true ∨ cfg.RestartRules = none) →
    determineRestartRequirement cfg files true name =
      ("required", "Global module modification") := by
  intro cfg files name h
  rcases h with h | h
  · simp [determineRestartRequirement, h]
  · simp [determineRestartRequirement, globalOverride, h, fallbackRestartCheck]

/-- Witness for C4 with the override set and an unrelated pattern. -/
theorem global_module_required_witness :
    (globalOverride ⟨some ⟨true, [⟨"x", "recommended", "y"⟩]⟩⟩ = true
     ∨ (⟨some ⟨true, [⟨"x", "recommended", "y"⟩]⟩⟩ : Config).RestartRules = none)
    ∧ determineRestartRequirement ⟨some ⟨true, [⟨"x", "recommended", "y"⟩]⟩⟩ []
        true "EJBAuth.jar" = ("required", "Global module modification") :=
  ⟨Or.inl rfl,
   global_module_required ⟨some ⟨true, [⟨"x", "recommended", "y"⟩]⟩⟩ []
     "EJBAuth.jar" (Or.inl rfl)⟩

/-- C3 (amended): a non-global `.war` artifact classifies as no restart
needed (`WAR hot-deployment`) when no configured pattern matches the
artifact name and no walked module path matches any pattern either (in
particular when no restart rules are configured at all). -/
theorem war_no_match_none :
    ∀ (cfg : Config) (files : List String) (name : String),
    strEndsWith name ".war" = true →
    (∀ p ∈ configPatterns cfg, matchString p.Match name ≠ some true) →
    checkSourceFilesAgainstPatterns cfg files = [] →
    determineRestartRequirement cfg files false name = ("none", "WAR hot-deployment") := by
  intro cfg files name hwar hnp hsrc
  have hjar := war_not_jar name hwar
  cases hc : cfg.RestartRules with
  | none => simp [determineRestartRequirement, hc, fallbackRestartCheck, hjar, hwar]
  | some rr =>
    cases hl : rr.Patterns with
    | nil =>
      simp [determineRestartRequirement, hc, hl, fallbackRestartCheck, hjar, hwar]
    | cons a l =>
      have hfm : firstArtifactMatch (a :: l) name = none := by
        rw [← hl]
        exact firstArtifactMatch_eq_none rr.Patterns name
          (fun p hp => hnp p (by simp [configPatterns, hc, hp]))
      simp [determineRestartRequirement, hc, hl, hfm, hsrc, hwar]

/-- C3 (counterexample): an artifact `app.war` matching no pattern still
classifies as `required` because a file in the module directory matches a
configured pattern. -/
theorem war_source_match_cex :
    strEndsWith "app.war" ".war" = true
    ∧ matchString "core" "app.war" = some false
    ∧ determineRestartRequirement ⟨some ⟨false, [⟨"core", "required", "core change"⟩]⟩⟩
        ["core/Main.java"] false "app.war"
        = ("required", "Source code changes: core change") := by decide

/-- Witness for the amended C3: same configuration, no matching module
files. -/
theorem war_no_match_none_witness :
    (strEndsWith "app.war" ".war" = true
     ∧ (∀ p ∈ configPatterns ⟨some ⟨false, [⟨"core", "required", "core change"⟩]⟩⟩,
          matchString p.Match "app.war" ≠ some true)
     ∧ checkSourceFilesAgainstPatterns
         ⟨some ⟨false, [⟨"core", "required", "core change"⟩]⟩⟩ [] = [])
    ∧ determineRestartRequirement ⟨some ⟨false, [⟨"core", "required", "core change"⟩]⟩⟩
        [] false "app.war" = ("none", "WAR hot-deployment") :=
  ⟨⟨by decide, by decide, by decide⟩,
   war_no_match_none ⟨some ⟨false, [⟨"core", "required", "core change"⟩]⟩⟩ []
     "app.war" (by decide) (by decide) (by decide)⟩

theorem checkSource_append_invalid (gm : Bool) (l1 l2 : List RestartPattern)
    (p : RestartPattern) (files : List String)
    (h : regexCompile p.Match = none) (hne : l1 ++ l2 ≠ []) :
    checkSourceFilesAgainstPatterns ⟨some ⟨gm, l1 ++ p :: l2⟩⟩ files
      = checkSourceFilesAgainstPatterns ⟨some ⟨gm, l1 ++ l2⟩⟩ files := by
  have hp : patternMatchesSomeFile p files = false := by
    simp [patternMatchesSomeFile, h]
  have h1 : (l1 ++ p :: l2).isEmpty = false := by cases l1 <;> rfl
  have h2 : (l1 ++ l2).isEmpty = false := by
    cases hx : l1 ++ l2 with
    | nil => exact absurd hx hne
    | cons a t => rfl
  simp [checkSourceFilesAgainstPatterns, h1, h2, List.filter_append,
    List.filter_cons, hp]

/-- C10 (amended): a pattern whose match expression is an invalid regex is
silently skipped — classification never aborts, and as long as at least
one other pattern remains configured, the result for every artifact is
the same as if the invalid pattern were absent. -/
theorem invalid_pattern_skipped :
    ∀ (gm : Bool) (l1 l2 : List RestartPattern) (p : RestartPattern)
      (files : List String) (g : Bool) (name : String),
    regexCompile p.Match = none →
    l1 ++ l2 ≠ [] →
    determineRestartRequirement ⟨some ⟨gm, l1 ++ p :: l2⟩⟩ files g name
      = determineRestartRequirement ⟨some ⟨gm, l1 ++ l2⟩⟩ files g name := by
  intro gm l1 l2 p files g name hc hne
  have hm : matchString p.Match name = none := by simp [matchString, hc]
  have hfm := firstArtifactMatch_append_invalid l1 l2 p name hm
  have hcs := checkSource_append_invalid gm l1 l2 p files hc hne
  have h1 : (l1 ++ p :: l2).isEmpty = false := by cases l1 <;> rfl
  have h2 : (l1 ++ l2).isEmpty = false := by
    cases hx : l1 ++ l2 with
    | nil => exact absurd hx hne
    | cons a t => rfl
  cases g <;> cases gm <;>
    simp [determineRestartRequirement, globalOverride, h1, h2, hfm, hcs]

/-- C10 (counterexample): when the invalid pattern is the only one, the
configuration no longer counts as having patterns and the classifier falls
back to the built-in heuristics, so removing the invalid pattern changes
the result (here for a global module without the override flag). -/
theorem invalid_pattern_only_cex :
    regexCompile "(" = none
    ∧ determineRestartRequirement ⟨some ⟨false, [⟨"(", "required", "broken"⟩]⟩⟩ []
        true "a.jar"
        = ("recommended", "Standard deployment (restart to ensure changes are loaded)")
    ∧ determineRestartRequirement ⟨some ⟨false, []⟩⟩ [] true "a.jar"
        = ("required", "Global module modification") := by decide

/-- Witness for the amended C10: an invalid pattern next to a valid one is
skipped without changing the classification. -/
theorem invalid_pattern_skipped_witness :
    (regexCompile "(" = none
     ∧ ([⟨"EJB", "recommended", "EJB jar"⟩] : List RestartPattern) ++ [] ≠ [])
    ∧ determineRestartRequirement
        ⟨some ⟨false, [⟨"EJB", "recommended", "EJB jar"⟩, ⟨"(", "required", "broken"⟩]⟩⟩
        [] false "x.jar"
      = determineRestartRequirement
          ⟨some ⟨false, [⟨"EJB", "recommended", "EJB jar"⟩]⟩⟩ [] false "x.jar" :=
  ⟨⟨by decide, by decide⟩,
   invalid_pattern_skipped false [⟨"EJB", "recommended", "EJB jar"⟩] []
     ⟨"(", "required", "broken"⟩ [] false "x.jar" (by decide) (by decide)⟩

/-- C5 (amended): for a configured remote host and the artifact
`foo.jar`, the guide prints exactly one `scp` command, exactly one `ssh`
command invoking the configured restart command, and exactly one `ssh`
command running `tail` on the server log; every one of those commands
references the configured user and host, the `tail` command references
the configured WildFly path, and the `scp` command references the WildFly
path for global-module and standalone deployments (in domain mode it
copies to `/tmp/`).  The side conditions only rule out a restart command
that textually coincides with one of the guide's other command strings.
The guide is pure output: it executes nothing. -/
theorem remote_guide_commands (pc : ProjectConfig) (r : Remote) (dp ap : String)
    (g : Bool)
    (hr : pc.Remote = some r)
    (h1 : r.RestartCmd ≠ touchCmdOf r "foo.jar")
    (h2 : r.RestartCmd ≠ undeployCmdOf r pc.ServerGroup "foo.jar")
    (h3 : r.RestartCmd ≠ deployCmdOf r pc.ServerGroup "foo.jar")
    (h4 : r.RestartCmd ≠ tailCmdOf pc r)
    (h5 : undeployCmdOf r pc.ServerGroup "foo.jar" ≠ tailCmdOf pc r)
    (h6 : deployCmdOf r pc.ServerGroup "foo.jar" ≠ tailCmdOf pc r) :
    (showRemoteGuide pc dp ap "foo.jar" g).filter isScpLine
        = [scpLine ap r.User r.Host (guideScpTarget pc r dp g)]
    ∧ (showRemoteGuide pc dp ap "foo.jar" g).filter
          (fun l => l == sshLine r.User r.Host r.RestartCmd)
        = [sshLine r.User r.Host r.RestartCmd]
    ∧ (showRemoteGuide pc dp ap "foo.jar" g).filter
          (fun l => l == sshLine r.User r.Host (tailCmdOf pc r))
        = [sshLine r.User r.Host (tailCmdOf pc r)]
    ∧ containsSub (scpLine ap r.User r.Host (guideScpTarget pc r dp g))
        (r.User ++ "@" ++ r.Host) = true
    ∧ containsSub (sshLine r.User r.Host r.RestartCmd)
        (r.User ++ "@" ++ r.Host) = true
    ∧ containsSub (sshLine r.User r.Host (tailCmdOf pc r))
        (r.User ++ "@" ++ r.Host) = true
    ∧ containsSub (sshLine r.User r.Host (tailCmdOf pc r)) r.WildFlyPath = true
    ∧ ((g = true ∨ (pc.WildFlyMode == "standalone") = true) →
        containsSub (scpLine ap r.User r.Host (guideScpTarget pc r dp g))
          r.WildFlyPath = true) := by
  refine ⟨?_, ?_, ?_, scpLine_contains_userhost _ _ _ _,
    sshLine_contains_userhost _ _ _, sshLine_contains_userhost _ _ _,
    sshLine_tail_contains_path r.User r.Host pc r, ?_⟩
  case _ =>
    cases g with
    | true =>
      simp [showRemoteGuide, hr, guideScpTarget, List.filter_cons, List.filter_nil,
        isScpLine_lits, isScpLine_sshLine, isScpLine_scpLine, isScpLine_hostLine]
    | false =>
      cases hm : pc.WildFlyMode == "standalone" with
      | true =>
        simp [showRemoteGuide, hr, hm, guideScpTarget, List.filter_cons,
          List.filter_nil, isScpLine_lits, isScpLine_sshLine, isScpLine_scpLine,
          isScpLine_hostLine]
      | false =>
        simp [showRemoteGuide, hr, hm, guideScpTarget, List.filter_cons,
          List.filter_nil, isScpLine_lits, isScpLine_sshLine, isScpLine_scpLine,
          isScpLine_hostLine]
  case _ =>
    cases g with
    | true =>
      simp [showRemoteGuide, hr, List.filter_cons, List.filter_nil,
        header_beq_sshLine r.User r.Host r.RestartCmd,
        sshLine_beq_false (fun e => h4 e.symm)]
    | false =>
      cases hm : pc.WildFlyMode == "standalone" with
      | true =>
        simp [showRemoteGuide, hr, hm, List.filter_cons, List.filter_nil,
          header_beq_sshLine r.User r.Host r.RestartCmd,
          sshLine_beq_false (fun e => h1 e.symm),
          sshLine_beq_false (fun e => h4 e.symm)]
      | false =>
        simp [showRemoteGuide, hr, hm, List.filter_cons, List.filter_nil,
          header_beq_sshLine r.User r.Host r.RestartCmd,
          sshLine_beq_false (fun e => h2 e.symm),
          sshLine_beq_false (fun e => h3 e.symm),
          sshLine_beq_false (fun e => h4 e.symm)]
  case _ =>
    cases g with
    | true =>
      simp [showRemoteGuide, hr, List.filter_cons, List.filter_nil,
        header_beq_sshLine r.User r.Host (tailCmdOf pc r),
        sshLine_beq_false h4]
    | false =>
      cases hm : pc.WildFlyMode == "standalone" with
      | true =>
        simp [showRemoteGuide, hr, hm, List.filter_cons, List.filter_nil,
          header_beq_sshLine r.User r.Host (tailCmdOf pc r),
          sshLine_beq_false (touchCmd_ne_tailCmd r "foo.jar" pc),
          sshLine_beq_false h4]
      | false =>
        simp [showRemoteGuide, hr, hm, List.filter_cons, List.filter_nil,
          header_beq_sshLine r.User r.Host (tailCmdOf pc r),
          sshLine_beq_false h5, sshLine_beq_false h6,
          sshLine_beq_false h4]
  case _ =>
    intro hcase
    cases g with
    | true =>
      rw [show guideScpTarget pc r dp true = r.WildFlyPath ++ ("/" ++ dp) from by
        simp [guideScpTarget, fpJoin, String.append_assoc]]
      exact scpLine_contains_target_head ap r.User r.Host _ _
    | false =>
      cases hm : pc.WildFlyMode == "standalone" with
      | true =>
        rw [show guideScpTarget pc r dp false
            = r.WildFlyPath ++ ("/" ++ ("standalone" ++ ("/" ++ "deployments")))
          from by simp [guideScpTarget, hm, remoteDeployPath, fpJoin,
            String.append_assoc]]
        exact scpLine_contains_target_head ap r.User r.Host _ _
      | false =>
        rcases hcase with hc | hc
        · exact absurd hc (by decide)
        · rw [hm] at hc; exact absurd hc (by decide)

/-- A concrete remote client used to test the guide: standalone mode,
restart via systemctl. -/
def rC5 : Remote :=
  ⟨"h1.example.com", "wfadmin", "/opt/wf", "systemctl restart wildfly"⟩

/-- The project configuration holding `rC5`. -/
def pcC5 : ProjectConfig :=
  ⟨"/local/wildfly", "standalone", "main-server-group", some rC5⟩

/-- C5 (counterexample): the guide's single `ssh` command invoking the
configured restart command references the host and user but not the
configured WildFly path, refuting "each referencing the configured host,
user, and WildFly path". -/
theorem remote_guide_restart_path_cex :
    (showRemoteGuide pcC5 "modules/x/main" "target/foo.jar" "foo.jar" false).filter
        (fun l => l == sshLine rC5.User rC5.Host rC5.RestartCmd)
      = [sshLine rC5.User rC5.Host rC5.RestartCmd]
    ∧ containsSub (sshLine rC5.User rC5.Host rC5.RestartCmd) rC5.WildFlyPath
        = false := by decide

/-- Witness for the amended C5 at the concrete client `rC5`. -/
theorem remote_guide_commands_witness :
    (pcC5.Remote = some rC5
     ∧ rC5.RestartCmd ≠ touchCmdOf rC5 "foo.jar"
     ∧ rC5.RestartCmd ≠ undeployCmdOf rC5 pcC5.ServerGroup "foo.jar"
     ∧ rC5.RestartCmd ≠ deployCmdOf rC5 pcC5.ServerGroup "foo.jar"
     ∧ rC5.RestartCmd ≠ tailCmdOf pcC5 rC5
     ∧ undeployCmdOf rC5 pcC5.ServerGroup "foo.jar" ≠ tailCmdOf pcC5 rC5
     ∧ deployCmdOf rC5 pcC5.ServerGroup "foo.jar" ≠ tailCmdOf pcC5 rC5)
    ∧ (showRemoteGuide pcC5 "modules/x/main" "target/foo.jar" "foo.jar" false).filter
          isScpLine
        = [scpLine "target/foo.jar" rC5.User rC5.Host
            (guideScpTarget pcC5 rC5 "modules/x/main" false)] :=
  ⟨⟨rfl, by decide, by decide, by decide, by decide, by decide, by decide⟩,
   (remote_guide_commands pcC5 rC5 "modules/x/main" "target/foo.jar" false rfl
      (by decide) (by decide) (by decide) (by decide) (by decide) (by decide)).1⟩

/-- C9: the Go confirmation prompt accepts exactly the inputs whose
lowercased, trimmed line is `""`, `"y"` or `"yes"`; it returns `false` on
a read error; in particular a bare newline (pressing Enter) consents. -/
theorem confirm_semantics :
    (∀ r : Option String,
      (confirm r = true ↔ ∃ s, r = some s ∧
        (strTrim (strToLower s) = "" ∨ strTrim (strToLower s) = "y" ∨
         strTrim (strToLower s) = "yes")))
    ∧ confirm none = false
    ∧ confirm (some "\n") = true := by
  refine ⟨fun r => ?_, rfl, by decide⟩
  cases r with
  | none => simp [confirm]
  | some s => simp [confirm, or_assoc]

/-- C7: `loadConfig` prefers the user config file, then a local
`config.yaml`, then the embedded default, and applies `expandPaths` to
whichever source is chosen. -/
theorem loadConfig_priority :
    (∀ (home : String) (doc : JValue) (l : Option JValue) (e : JValue),
        loadConfig home (some doc) l e = expandPaths home doc)
    ∧ (∀ (home : String) (doc : JValue) (e : JValue),
        loadConfig home none (some doc) e = expandPaths home doc)
    ∧ (∀ (home : String) (e : JValue),
        loadConfig home none none e = expandPaths home e)
    ∧ (∀ (home : String) (u l : Option JValue) (e : JValue),
        loadConfig home u l e = expandPaths home (specConfigSource u l e)) := by
  refine ⟨fun _ _ _ _ => rfl, fun _ _ _ => rfl, fun _ _ => rfl, fun home u l e => ?_⟩
  cases u <;> cases l <;> rfl

/-- C8: in domain mode the undeploy subprocess result is ignored: the
outcome is unchanged when undeploy fails, the deploy subprocess is always
invoked, and the result is an error exactly when deploy fails. -/
theorem deployDomain_ignores_undeploy_failure :
    ∀ (root sg ap : String) (u d : Bool),
    deployDomain root sg ap false d = deployDomain root sg ap true d
    ∧ Action.exec (fpJoin (fpJoin root "bin") "jboss-cli.sh" ++
        " --connect controller=localhost deploy " ++ ap ++ " --server-groups=" ++ sg)
        ∈ (deployDomain root sg ap u d).1
    ∧ ((deployDomain root sg ap u d).2 = none ↔ d = true) := by
  intro root sg ap u d
  refine ⟨rfl, ?_, ?_⟩
  · simp [deployDomain]
  · cases d <;> simp [deployDomain]

/-- C6: when the artifact exists and the user declines the confirmation
prompt, `Deploy` performs no filesystem or subprocess action, returns nil,
and the process exits zero. -/
theorem decline_no_mutation :
    ∀ (info : ProjectInfo) (input : Option String) (ap : String) (u d : Bool),
    confirm input = false →
    Deploy info true input ap u d = ([], none)
    ∧ deployExitCode (Deploy info true input ap u d) = 0 := by
  intro info input ap u d h
  simp [Deploy, h, deployExitCode]

theorem expandList_get? (home : String) (xs : List JValue) (i : Nat) :
    (expandList home xs).get? i = (xs.get? i).map (expandPaths home) := by
  induction xs generalizing i with
  | nil => simp [expandList]
  | cons v vs ih =>
    cases i with
    | zero => simp [expandList]
    | succ n => simpa [expandList] using ih n

theorem expandEntries_get? (home : String) (kvs : List (String × JValue)) (i : Nat) :
    (expandEntries home kvs).get? i
      = (kvs.get? i).map (fun kv => (kv.1, expandEntry home kv.2)) := by
  induction kvs generalizing i with
  | nil => simp [expandEntries]
  | cons kv kvs ih =>
    cases i with
    | zero => simp [expandEntries]
    | succ n => simpa [expandEntries] using ih n

theorem expandEntry_eq_expandPaths (home : String) (v : JValue)
    (h : ∀ s, v ≠ .str s) : expandEntry home v = expandPaths home v := by
  cases v with
  | str s => exact absurd rfl (h s)
  | num n => rfl
  | boolean b => rfl
  | null => rfl
  | arr xs => rfl
  | obj kvs => rfl

/-- C2 (amended): `expandPaths` rewrites exactly the strings reached as a
mapping-entry value: along any path into the tree ending at a string, the
string has a leading `~` replaced by the home directory iff the last step
enters a mapping entry and the string starts with `~`; strings that are
sequence elements or the top-level value, strings without a leading `~`,
and non-string scalars are unchanged. -/
theorem expandPaths_expands_mapping_values :
    ∀ (home : String) (π : List Step) (v : JValue) (s : String),
    getPath v π = some (.str s) →
    getPath (expandPaths home v) π =
      some (.str (if endsWithFld π && strStartsWith s "~"
                  then home ++ strDrop1 s else s)) := by
  intro home π
  induction π with
  | nil =>
    intro v s h
    have hv : v = .str s := by simpa [getPath] using h
    subst hv
    simp [getPath, expandPaths, endsWithFld]
  | cons step rest ih =>
    intro v s h
    cases step with
    | fld i =>
      cases v with
      | str t => simp [getPath] at h
      | num n => simp [getPath] at h
      | boolean b => simp [getPath] at h
      | null => simp [getPath] at h
      | arr xs => simp [getPath] at h
      | obj kvs =>
        simp only [getPath] at h
        cases hk : kvs.get? i with
        | none => rw [hk] at h; simp at h
        | some kv =>
          rw [hk] at h
          have h2 : getPath kv.2 rest = some (.str s) := h
          have hgoal : getPath (expandPaths home (.obj kvs)) (.fld i :: rest)
              = getPath (expandEntry home kv.2) rest := by
            have e1 : expandPaths home (.obj kvs) = .obj (expandEntries home kvs) := by
              simp [expandPaths]
            rw [e1]
            simp only [getPath]
            rw [expandEntries_get?, hk]
            rfl
          rw [hgoal]
          cases rest with
          | nil =>
            have hv : kv.2 = .str s := by simpa [getPath] using h2
            rw [hv]
            cases hs : strStartsWith s "~" <;>
              simp [expandEntry, getPath, endsWithFld, hs]
          | cons st2 rs =>
            have hns : ∀ s', kv.2 ≠ .str s' := by
              intro s' he
              rw [he] at h2
              cases st2 <;> simp [getPath] at h2
            rw [expandEntry_eq_expandPaths home kv.2 hns]
            rw [show endsWithFld (Step.fld i :: st2 :: rs) = endsWithFld (st2 :: rs)
                from rfl]
            exact ih kv.2 s h2
    | idx i =>
      cases v with
      | str t => simp [getPath] at h
      | num n => simp [getPath] at h
      | boolean b => simp [getPath] at h
      | null => simp [getPath] at h
      | obj kvs => simp [getPath] at h
      | arr xs =>
        simp only [getPath] at h
        cases hk : xs.get? i with
        | none => rw [hk] at h; simp at h
        | some w =>
          rw [hk] at h
          have h2 : getPath w rest = some (.str s) := h
          have hgoal : getPath (expandPaths home (.arr xs)) (.idx i :: rest)
              = getPath (expandPaths home w) rest := by
            have e1 : expandPaths home (.arr xs) = .arr (expandList home xs) := by
              simp [expandPaths]
            rw [e1]
            simp only [getPath]
            rw [expandList_get?, hk]
            rfl
          rw [hgoal]
          cases rest with
          | nil =>
            have hv : w = .str s := by simpa [getPath] using h2
            rw [hv]
            simp [expandPaths, getPath, endsWithFld]
          | cons st2 rs =>
            rw [show endsWithFld (Step.idx i :: st2 :: rs) = endsWithFld (st2 :: rs)
                from rfl]
            exact ih w s h2

/-- C2 (counterexample): a string with a leading `~` sitting directly
inside a sequence is returned unchanged, not expanded. -/
theorem expandPaths_sequence_unchanged_cex :
    expandPaths "/home/u" (.arr [.str "~/x"]) = .arr [.str "~/x"]
    ∧ JValue.str "~/x" ≠ JValue.str "/home/u/x" := by
  refine ⟨rfl, ?_⟩
  intro h
  injection h with h2
  exact (by decide : ("~/x" : String) ≠ "/home/u/x") h2

/-- Witness for the amended C2: a `~` string that is a mapping value is
expanded. -/
theorem expandPaths_expands_mapping_values_witness :
    getPath (.obj [("path", .str "~/x")]) [Step.fld 0] = some (.str "~/x")
    ∧ getPath (expandPaths "/home/u" (.obj [("path", .str "~/x")])) [Step.fld 0]
        = some (.str "/home/u/x") := by
  refine ⟨rfl, ?_⟩
  have h := expandPaths_expands_mapping_values "/home/u" [Step.fld 0]
    (.obj [("path", .str "~/x")]) "~/x" rfl
  rw [show (if endsWithFld [Step.fld 0] && strStartsWith "~/x" "~"
            then "/home/u" ++ strDrop1 "~/x" else "~/x") = "/home/u/x"
      from by decide] at h
  exact h

/-- Witness for C6 at a concrete declining input. -/
theorem decline_no_mutation_witness :
    confirm (some "n") = false ∧
    Deploy ⟨"sinfomar", "EJBPcs", false, "modules/ejbpcs/main",
        ⟨"/opt/wildfly", "standalone", "main-server-group", none⟩, []⟩
      true (some "n") "target/EJBPcs.jar" true true = ([], none) :=
  ⟨by decide,
   (decline_no_mutation
      ⟨"sinfomar", "EJBPcs", false, "modules/ejbpcs/main",
        ⟨"/opt/wildfly", "standalone", "main-server-group", none⟩, []⟩
      (some "n") "target/EJBPcs.jar" true true (by decide)).1⟩

end GMW
